import Mathlib

/-!
Verification of the LeetBoard snapshot/progress core.

This file gives a shallow embedding, in Lean, of the logic of the LeetBoard
repository (a friends leaderboard for LeetCode practice): the experience
score, the period-key calculator, the snapshot store, the progress engine,
the stats fetcher and the job-status transition, together with theorems
about them.

Conventions of the embedding:
* JavaScript integer-valued counters (`easy`, `medium`, `hard`, `total`,
  `jobsApplied`) are modelled as `Int`; the weighted score `xp`, which uses
  the fractional weight `0.5`, is modelled as `Rat`.
* Firestore collections are modelled as lists of documents; `addDoc` is an
  append, a `where`-equality query with `limit(1)` is `List.find?`.
* The string union type `SnapshotPeriod` is modelled as `String`, as are
  job-status values (Firestore can hold arbitrary strings at runtime).
* The external network is modelled as a function from the attempt number to
  the outcome of that attempt.
* An instant in the fixed reference time zone is modelled by its civil day
  number: days elapsed since 0001-01-01 in the proleptic Gregorian
  calendar (day 0 is a Monday), which is the only information the period
  key formatter reads from a zoned date.
-/

namespace LeetBoard

/-- Per-user per-difficulty statistics, from `types.ts` (`DifficultyStats`
plus the `UserStats` extension fields). -/
structure UserStats where
  username : String
  name : Option String := none
  jobsApplied : Int
  easy : Int
  medium : Int
  hard : Int
  total : Int
  xp : Rat
  rank : Nat
  error : Option String := none
deriving Repr, DecidableEq

/-- One user's baseline entry inside a persisted snapshot, from `types.ts`
(`SnapshotUserStats`). -/
structure SnapshotUserStats where
  username : String
  name : Option String := none
  jobsApplied : Int
  easy : Int
  medium : Int
  hard : Int
  total : Int
  xp : Rat
deriving Repr, DecidableEq

/-- A persisted baseline snapshot document, from `types.ts`
(`LeaderboardSnapshot`); the Firestore document id is not part of the
stored data and is irrelevant to the claims, so it is omitted. -/
structure LeaderboardSnapshot where
  period : String
  periodKey : String
  createdAt : String
  users : List SnapshotUserStats
deriving Repr, DecidableEq

/-! ## Job status transition (`App.tsx`, `STATUS_SEQUENCE` / `getNextStatus`) -/

/-- The ordered job status sequence from `App.tsx`. -/
def STATUS_SEQUENCE : List String := ["Applied", "Assessment", "Interview", "Offer"]

/-- Embedding of `getNextStatus` from `App.tsx`: `indexOf` returning `-1` (here: `none`)
falls back to `"Applied"`; otherwise advance one step, wrapping modulo the
sequence length. -/
def getNextStatus (current : String) : String :=
  match STATUS_SEQUENCE.findIdx? (fun s => s == current) with
  | none => "Applied"
  | some idx => STATUS_SEQUENCE.getD ((idx + 1) % STATUS_SEQUENCE.length) "Applied"

/-! ## Progress engine (`App.tsx`, `computeProgress`) -/

/-- Embedding of `computeProgress` from `App.tsx`: with no baseline entry, all numeric
fields are zeroed; with a baseline, each counter delta is clamped at zero
and `xp` is recomputed from the clamped deltas with the weights
`0.5 / 1 / 2 / 4`. -/
def computeProgress (current : UserStats) (baseline : Option SnapshotUserStats) : UserStats :=
  match baseline with
  | none =>
      { current with jobsApplied := 0, easy := 0, medium := 0, hard := 0, total := 0,
                     xp := 0, rank := 0 }
  | some b =>
      let jobsDelta := max 0 (current.jobsApplied - b.jobsApplied)
      let easyDelta := max 0 (current.easy - b.easy)
      let mediumDelta := max 0 (current.medium - b.medium)
      let hardDelta := max 0 (current.hard - b.hard)
      let totalDelta := max 0 (current.total - b.total)
      let xpDelta : Rat :=
        (jobsDelta : Rat) * (1/2) + (easyDelta : Rat) * 1 +
        (mediumDelta : Rat) * 2 + (hardDelta : Rat) * 4
      { username := current.username, name := current.name, jobsApplied := jobsDelta,
        easy := easyDelta, medium := mediumDelta, hard := hardDelta, total := totalDelta,
        xp := xpDelta, rank := 0, error := current.error }

/-! ## Theorems for the job status transition -/

/-- Claim C10: advancing a job status moves it exactly one step along
Applied, Assessment, Interview, Offer; advancing from Offer wraps back to
Applied; and any status value outside the sequence advances to Applied. -/
theorem getNextStatus_spec (s : String) :
    getNextStatus "Applied" = "Assessment" ∧
    getNextStatus "Assessment" = "Interview" ∧
    getNextStatus "Interview" = "Offer" ∧
    getNextStatus "Offer" = "Applied" ∧
    (s ∉ STATUS_SEQUENCE → getNextStatus s = "Applied") := by
  refine ⟨by decide, by decide, by decide, by decide, fun hs => ?_⟩
  have h1 : s ≠ "Applied" := fun h => hs (h ▸ by decide)
  have h2 : s ≠ "Assessment" := fun h => hs (h ▸ by decide)
  have h3 : s ≠ "Interview" := fun h => hs (h ▸ by decide)
  have h4 : s ≠ "Offer" := fun h => hs (h ▸ by decide)
  simp only [getNextStatus, STATUS_SEQUENCE]
  simp [List.findIdx?_cons, beq_eq_false_iff_ne, Ne.symm h1, Ne.symm h2, Ne.symm h3, Ne.symm h4]

/-- Witness for C10 at the concrete out-of-sequence status "Rejected". -/
theorem getNextStatus_spec_witness :
    "Rejected" ∉ STATUS_SEQUENCE ∧ getNextStatus "Rejected" = "Applied" :=
  ⟨by decide, (getNextStatus_spec "Rejected").2.2.2.2 (by decide)⟩

/-! ## Theorems for the progress engine -/

/-- Claim C2: with a baseline entry present, every counter field of
`computeProgress` equals the clamped delta `max 0 (current - baseline)`,
`xp` is recomputed from those clamped deltas with weights 0.5/1/2/4 (not
taken from the absolute xp values), and every numeric field of the result
is non-negative. -/
theorem computeProgress_baseline_spec (current : UserStats) (b : SnapshotUserStats) :
    (computeProgress current (some b)).easy = max 0 (current.easy - b.easy) ∧
    (computeProgress current (some b)).medium = max 0 (current.medium - b.medium) ∧
    (computeProgress current (some b)).hard = max 0 (current.hard - b.hard) ∧
    (computeProgress current (some b)).total = max 0 (current.total - b.total) ∧
    (computeProgress current (some b)).jobsApplied = max 0 (current.jobsApplied - b.jobsApplied) ∧
    (computeProgress current (some b)).xp =
      ((max 0 (current.jobsApplied - b.jobsApplied) : Int) : Rat) * (1/2) +
      ((max 0 (current.easy - b.easy) : Int) : Rat) * 1 +
      ((max 0 (current.medium - b.medium) : Int) : Rat) * 2 +
      ((max 0 (current.hard - b.hard) : Int) : Rat) * 4 ∧
    0 ≤ (computeProgress current (some b)).easy ∧
    0 ≤ (computeProgress current (some b)).medium ∧
    0 ≤ (computeProgress current (some b)).hard ∧
    0 ≤ (computeProgress current (some b)).total ∧
    0 ≤ (computeProgress current (some b)).jobsApplied ∧
    0 ≤ (computeProgress current (some b)).xp := by
  have hj : (0 : Int) ≤ max 0 (current.jobsApplied - b.jobsApplied) := le_max_left _ _
  have he : (0 : Int) ≤ max 0 (current.easy - b.easy) := le_max_left _ _
  have hm : (0 : Int) ≤ max 0 (current.medium - b.medium) := le_max_left _ _
  have hh : (0 : Int) ≤ max 0 (current.hard - b.hard) := le_max_left _ _
  have ht : (0 : Int) ≤ max 0 (current.total - b.total) := le_max_left _ _
  refine ⟨rfl, rfl, rfl, rfl, rfl, rfl, he, hm, hh, ht, hj, ?_⟩
  simp only [computeProgress]
  have hj' : (0 : Rat) ≤ ((max 0 (current.jobsApplied - b.jobsApplied) : Int) : Rat) := by
    exact_mod_cast hj
  have he' : (0 : Rat) ≤ ((max 0 (current.easy - b.easy) : Int) : Rat) := by exact_mod_cast he
  have hm' : (0 : Rat) ≤ ((max 0 (current.medium - b.medium) : Int) : Rat) := by exact_mod_cast hm
  have hh' : (0 : Rat) ≤ ((max 0 (current.hard - b.hard) : Int) : Rat) := by exact_mod_cast hh
  nlinarith [hj', he', hm', hh']

/-- Claim C3: with no baseline entry for the user, `computeProgress` zeroes
every numeric field of the result, no matter how large the current stats
are. -/
theorem computeProgress_noBaseline_spec (current : UserStats) :
    (computeProgress current none).easy = 0 ∧
    (computeProgress current none).medium = 0 ∧
    (computeProgress current none).hard = 0 ∧
    (computeProgress current none).total = 0 ∧
    (computeProgress current none).jobsApplied = 0 ∧
    (computeProgress current none).xp = 0 :=
  ⟨rfl, rfl, rfl, rfl, rfl, rfl⟩

/-! ## Ranking (`App.tsx`, `sortAndRank`) -/

/-- The leaderboard comparator from `App.tsx` as a "may come first"
relation: `a` may precede `b` when the comparator value
`if (b.xp === a.xp) return b.total - a.total; return b.xp - a.xp`
is not positive. -/
def leaderboardOrder (a b : UserStats) : Prop :=
  if a.xp = b.xp then b.total ≤ a.total else b.xp < a.xp

instance : DecidableRel leaderboardOrder := fun a b => by
  unfold leaderboardOrder; infer_instance

instance : IsTotal UserStats leaderboardOrder := by
  constructor
  intro a b
  unfold leaderboardOrder
  by_cases h : a.xp = b.xp
  · rw [if_pos h, if_pos h.symm]
    exact le_total b.total a.total
  · rw [if_neg h, if_neg (Ne.symm h)]
    exact Or.symm (lt_or_gt_of_ne h)

instance : IsTrans UserStats leaderboardOrder := by
  constructor
  intro a b c h1 h2
  unfold leaderboardOrder at *
  by_cases hab : a.xp = b.xp
  · rw [if_pos hab] at h1
    by_cases hbc : b.xp = c.xp
    · rw [if_pos hbc] at h2
      rw [if_pos (hab.trans hbc)]
      exact le_trans h2 h1
    · rw [if_neg hbc] at h2
      have hac : c.xp < a.xp := hab ▸ h2
      rw [if_neg (ne_of_gt hac)]
      exact hac
  · rw [if_neg hab] at h1
    by_cases hbc : b.xp = c.xp
    · rw [if_pos hbc] at h2
      have hac : c.xp < a.xp := hbc ▸ h1
      rw [if_neg (ne_of_gt hac)]
      exact hac
    · rw [if_neg hbc] at h2
      have hac : c.xp < a.xp := lt_trans h2 h1
      rw [if_neg (ne_of_gt hac)]
      exact hac

/-- The `map((stat, index) => ({ ...stat, rank: index + 1 }))` step from
`App.tsx`, with an explicit starting index. -/
def assignRanks : Nat → List UserStats → List UserStats
  | _, [] => []
  | i, s :: rest => { s with rank := i } :: assignRanks (i + 1) rest

/-- Embedding of `sortAndRank` from `App.tsx`: sort by the leaderboard comparator
(descending xp, ties broken by descending total), then assign 1-based
positional ranks. -/
def sortAndRank (items : List UserStats) : List UserStats :=
  assignRanks 1 (items.insertionSort leaderboardOrder)

theorem assignRanks_map_key (i : Nat) (l : List UserStats) :
    (assignRanks i l).map (fun u => (u.xp, u.total)) = l.map (fun u => (u.xp, u.total)) := by
  induction l generalizing i with
  | nil => rfl
  | cons x xs ih => simp [assignRanks, ih]

theorem assignRanks_map_rank (i : Nat) (l : List UserStats) :
    (assignRanks i l).map (fun u => u.rank) = List.range' i l.length := by
  induction l generalizing i with
  | nil => rfl
  | cons x xs ih => simp [assignRanks, ih, List.range']

/-- Claim C5: the ranked list is ordered descending by xp with ties broken
by descending total, and the assigned ranks are exactly the positions
1..N of that final order (a permutation of 1..N, so no gaps, no
duplicates, and tied users do not share a rank). -/
theorem sortAndRank_spec (items : List UserStats) :
    List.Pairwise
      (fun a b : UserStats => b.xp < a.xp ∨ (a.xp = b.xp ∧ b.total ≤ a.total))
      (sortAndRank items) ∧
    (sortAndRank items).map (fun u => u.rank) = List.range' 1 items.length := by
  constructor
  · have hs : List.Sorted leaderboardOrder (items.insertionSort leaderboardOrder) :=
      List.sorted_insertionSort _ _
    have hs2 : List.Pairwise
        (fun a b : UserStats => b.xp < a.xp ∨ (a.xp = b.xp ∧ b.total ≤ a.total))
        (items.insertionSort leaderboardOrder) := by
      refine hs.imp ?_
      intro a b h
      unfold leaderboardOrder at h
      split_ifs at h with hxp
      · exact Or.inr ⟨hxp, h⟩
      · exact Or.inl h
    have hmap : List.Pairwise
        (fun p q : Rat × Int => q.1 < p.1 ∨ (p.1 = q.1 ∧ q.2 ≤ p.2))
        ((assignRanks 1 (items.insertionSort leaderboardOrder)).map
          (fun u => (u.xp, u.total))) := by
      rw [assignRanks_map_key]
      exact List.pairwise_map.mpr hs2
    exact List.pairwise_map.mp hmap
  · rw [sortAndRank, assignRanks_map_rank, List.length_insertionSort]

/-! ## Previous-period reconstruction (`App.tsx`, `computePrevStats`) -/

/-- Lookup of a user's baseline in the (possibly absent) start snapshot:
`startSnap?.users.find(u => u.username === endUser.username)` from
`App.tsx`. -/
def prevStartUser (startSnap : Option LeaderboardSnapshot) (username : String) :
    Option SnapshotUserStats :=
  match startSnap with
  | none => none
  | some s => s.users.find? (fun u => u.username == username)

/-- The per-user delta entry built by `computePrevStats` in `App.tsx`:
clamped deltas against the start entry (or against zero when the user is
absent from the start snapshot, matching `startUser?.field || 0`), xp
recomputed from the deltas, and `total` set to the sum of the easy,
medium and hard deltas. -/
def prevDelta (startSnap : Option LeaderboardSnapshot) (endUser : SnapshotUserStats) :
    UserStats :=
  let startUser := prevStartUser startSnap endUser.username
  let jobsDelta := max 0 (endUser.jobsApplied - (startUser.map (fun u => u.jobsApplied)).getD 0)
  let easyDelta := max 0 (endUser.easy - (startUser.map (fun u => u.easy)).getD 0)
  let mediumDelta := max 0 (endUser.medium - (startUser.map (fun u => u.medium)).getD 0)
  let hardDelta := max 0 (endUser.hard - (startUser.map (fun u => u.hard)).getD 0)
  let xpDelta : Rat :=
    (jobsDelta : Rat) * (1/2) + (easyDelta : Rat) * 1 +
    (mediumDelta : Rat) * 2 + (hardDelta : Rat) * 4
  { username := endUser.username, name := endUser.name, jobsApplied := jobsDelta,
    easy := easyDelta, medium := mediumDelta, hard := hardDelta,
    total := easyDelta + mediumDelta + hardDelta, xp := xpDelta, rank := 0, error := none }

/-- The final sort of `computePrevStats`: descending by xp only. -/
def prevOrder (a b : UserStats) : Prop := b.xp ≤ a.xp

instance : DecidableRel prevOrder := fun a b => by
  unfold prevOrder; infer_instance

/-- Embedding of `computePrevStats` from `App.tsx`: map every end-snapshot entry to its
delta record, sort descending by xp, assign 1-based ranks. -/
def computePrevStats (endSnap : LeaderboardSnapshot)
    (startSnap : Option LeaderboardSnapshot) : List UserStats :=
  assignRanks 1 ((endSnap.users.map (prevDelta startSnap)).insertionSort prevOrder)

/-- A concrete end-of-period snapshot on which claim C6 fails: the user
solved 1 easy, 1 medium and 1 hard problem while the stored lifetime
`total` is 100. -/
def prevTotalEndSnap : LeaderboardSnapshot :=
  { period := "weekly", periodKey := "2026-W02", createdAt := "2026-01-05",
    users := [{ username := "alice", name := some "Alice", jobsApplied := 0,
                easy := 1, medium := 1, hard := 1, total := 100, xp := 7 }] }

/-- Counterexample to claim C6 as stated: with no start snapshot (all-zero
baseline), the claim's rule for `total` demands
`max 0 (end.total - 0) = 100`, but `computePrevStats` produces `total = 3`
(the sum of the easy, medium and hard deltas). -/
theorem computePrevStats_total_counterexample :
    (computePrevStats prevTotalEndSnap none).map (fun u => u.total) = [3] ∧
    max 0 ((prevTotalEndSnap.users.map (fun u => u.total)).getD 0 0 - 0) = 100 ∧
    (3 : Int) ≠ 100 := by
  refine ⟨?_, by decide, by decide⟩
  decide

/-- Claim C6 (amended): `computePrevStats` computes each user's jobs, easy,
medium and hard deltas as `max 0 (end - start)` with xp recomputed from
those deltas, treating a user absent from the start snapshot as having an
all-zero baseline (full credit from zero); the `total` field, however, is
the sum of the easy, medium and hard deltas, not a delta of the stored
totals. -/
theorem computePrevStats_amended_spec :
    (∀ (startSnap : Option LeaderboardSnapshot) (endUser su : SnapshotUserStats),
      prevStartUser startSnap endUser.username = some su →
        (prevDelta startSnap endUser).jobsApplied = max 0 (endUser.jobsApplied - su.jobsApplied) ∧
        (prevDelta startSnap endUser).easy = max 0 (endUser.easy - su.easy) ∧
        (prevDelta startSnap endUser).medium = max 0 (endUser.medium - su.medium) ∧
        (prevDelta startSnap endUser).hard = max 0 (endUser.hard - su.hard) ∧
        (prevDelta startSnap endUser).total =
          max 0 (endUser.easy - su.easy) + max 0 (endUser.medium - su.medium) +
          max 0 (endUser.hard - su.hard) ∧
        (prevDelta startSnap endUser).xp =
          ((max 0 (endUser.jobsApplied - su.jobsApplied) : Int) : Rat) * (1/2) +
          ((max 0 (endUser.easy - su.easy) : Int) : Rat) * 1 +
          ((max 0 (endUser.medium - su.medium) : Int) : Rat) * 2 +
          ((max 0 (endUser.hard - su.hard) : Int) : Rat) * 4) ∧
    (∀ (startSnap : Option LeaderboardSnapshot) (endUser : SnapshotUserStats),
      prevStartUser startSnap endUser.username = none →
        (prevDelta startSnap endUser).jobsApplied = max 0 endUser.jobsApplied ∧
        (prevDelta startSnap endUser).easy = max 0 endUser.easy ∧
        (prevDelta startSnap endUser).medium = max 0 endUser.medium ∧
        (prevDelta startSnap endUser).hard = max 0 endUser.hard ∧
        (prevDelta startSnap endUser).total =
          max 0 endUser.easy + max 0 endUser.medium + max 0 endUser.hard ∧
        (prevDelta startSnap endUser).xp =
          ((max 0 endUser.jobsApplied : Int) : Rat) * (1/2) +
          ((max 0 endUser.easy : Int) : Rat) * 1 +
          ((max 0 endUser.medium : Int) : Rat) * 2 +
          ((max 0 endUser.hard : Int) : Rat) * 4) := by
  constructor
  · intro startSnap endUser su h
    simp [prevDelta, h]
  · intro startSnap endUser h
    simp [prevDelta, h]

/-- A concrete start snapshot for the C6 witness. -/
def prevStartSnapWitness : LeaderboardSnapshot :=
  { period := "weekly", periodKey := "2026-W01", createdAt := "2025-12-29",
    users := [{ username := "alice", name := some "Alice", jobsApplied := 1,
                easy := 1, medium := 0, hard := 0, total := 1, xp := 2 }] }

/-- Witness for the amended C6 at concrete inputs: "alice" is present in
the start snapshot, "bob" is absent. -/
theorem computePrevStats_amended_spec_witness :
    (prevDelta (some prevStartSnapWitness)
      { username := "alice", name := some "Alice", jobsApplied := 2,
        easy := 3, medium := 1, hard := 0, total := 4, xp := 9 }).total = 3 ∧
    (prevDelta (some prevStartSnapWitness)
      { username := "bob", name := none, jobsApplied := 4,
        easy := 5, medium := 6, hard := 7, total := 18, xp := 50 }).hard = 7 := by
  have h1 := computePrevStats_amended_spec.1 (some prevStartSnapWitness)
    { username := "alice", name := some "Alice", jobsApplied := 2,
      easy := 3, medium := 1, hard := 0, total := 4, xp := 9 }
    { username := "alice", name := some "Alice", jobsApplied := 1,
      easy := 1, medium := 0, hard := 0, total := 1, xp := 2 }
    (by rfl)
  have h2 := computePrevStats_amended_spec.2 (some prevStartSnapWitness)
    { username := "bob", name := none, jobsApplied := 4,
      easy := 5, medium := 6, hard := 7, total := 18, xp := 50 }
    (by rfl)
  refine ⟨?_, ?_⟩
  · rw [h1.2.2.2.2.1]
    decide
  · rw [h2.2.2.2.1]
    decide

/-! ## Snapshot store (`snapshotUtils.ts`, `ensureSnapshot`) -/

/-- The Firestore query predicate
`where('period','==',period), where('periodKey','==',periodKey)`. -/
def snapshotKeyMatch (period periodKey : String) (s : LeaderboardSnapshot) : Bool :=
  s.period == period && s.periodKey == periodKey

/-- The `limit(1)` query for a snapshot with the given composite key. -/
def findSnapshotForKey (store : List LeaderboardSnapshot) (period periodKey : String) :
    Option LeaderboardSnapshot :=
  store.find? (snapshotKeyMatch period periodKey)

/-- The per-user projection used when building a new snapshot document in
`ensureSnapshot`. -/
def toSnapshotUserStats (user : UserStats) : SnapshotUserStats :=
  { username := user.username, name := user.name, jobsApplied := user.jobsApplied,
    easy := user.easy, medium := user.medium, hard := user.hard, total := user.total,
    xp := user.xp }

/-- Embedding of `ensureSnapshot` from `snapshotUtils.ts`: if a snapshot with the given
`(period, periodKey)` exists, return it and leave the store untouched;
otherwise build a snapshot whose users are exactly the current stats and
append it (`addDoc`). Returns the snapshot together with the new store
contents. -/
def ensureSnapshot (period periodKey createdAt : String) (currentStats : List UserStats)
    (store : List LeaderboardSnapshot) : LeaderboardSnapshot × List LeaderboardSnapshot :=
  match findSnapshotForKey store period periodKey with
  | some snap => (snap, store)
  | none =>
      let newSnapshot : LeaderboardSnapshot :=
        { period := period, periodKey := periodKey, createdAt := createdAt,
          users := currentStats.map toSnapshotUserStats }
      (newSnapshot, store ++ [newSnapshot])

/-- Number of persisted snapshot documents with the given composite key. -/
def countSnapshotsForKey (store : List LeaderboardSnapshot) (period periodKey : String) : Nat :=
  (store.filter (snapshotKeyMatch period periodKey)).length

theorem countSnapshotsForKey_eq_zero_of_find?_none
    {store : List LeaderboardSnapshot} {period periodKey : String}
    (h : findSnapshotForKey store period periodKey = none) :
    countSnapshotsForKey store period periodKey = 0 := by
  unfold countSnapshotsForKey
  rw [List.length_eq_zero, List.filter_eq_nil_iff]
  rw [findSnapshotForKey, List.find?_eq_none] at h
  exact h

theorem countSnapshotsForKey_pos_of_find?_some
    {store : List LeaderboardSnapshot} {period periodKey : String}
    {snap : LeaderboardSnapshot}
    (h : findSnapshotForKey store period periodKey = some snap) :
    1 ≤ countSnapshotsForKey store period periodKey := by
  unfold countSnapshotsForKey
  have hmem : snap ∈ store.filter (snapshotKeyMatch period periodKey) :=
    List.mem_filter.mpr ⟨List.mem_of_find?_eq_some h, List.find?_some h⟩
  exact List.length_pos.mpr (List.ne_nil_of_mem hmem)

theorem ensureSnapshot_count_one
    (period periodKey createdAt : String) (currentStats : List UserStats)
    (store : List LeaderboardSnapshot)
    (h : countSnapshotsForKey store period periodKey ≤ 1) :
    countSnapshotsForKey (ensureSnapshot period periodKey createdAt currentStats store).2
      period periodKey = 1 := by
  cases hf : findSnapshotForKey store period periodKey with
  | some snap =>
      have h1 := countSnapshotsForKey_pos_of_find?_some hf
      have h2 : (ensureSnapshot period periodKey createdAt currentStats store).2 = store := by
        unfold ensureSnapshot
        rw [hf]
      rw [h2]
      omega
  | none =>
      have h2 : (ensureSnapshot period periodKey createdAt currentStats store).2 =
          store ++ [{ period := period, periodKey := periodKey, createdAt := createdAt,
                      users := currentStats.map toSnapshotUserStats }] := by
        unfold ensureSnapshot
        rw [hf]
      rw [h2]
      have h0 := countSnapshotsForKey_eq_zero_of_find?_none hf
      simp only [countSnapshotsForKey, List.filter_append, List.length_append] at *
      simp [snapshotKeyMatch, h0]

/-- Claim C1: if a snapshot for the current `(period, periodKey)` already
exists, `ensureSnapshot` returns it unchanged and persists nothing new;
two successive calls with the same period key leave exactly one persisted
document for that pair; and the at-most-one-document-per-pair invariant is
preserved for every pair. -/
theorem ensureSnapshot_spec :
    (∀ (period periodKey createdAt : String) (currentStats : List UserStats)
        (store : List LeaderboardSnapshot) (snap : LeaderboardSnapshot),
      findSnapshotForKey store period periodKey = some snap →
        ensureSnapshot period periodKey createdAt currentStats store = (snap, store)) ∧
    (∀ (period periodKey c1 c2 : String) (stats1 stats2 : List UserStats)
        (store : List LeaderboardSnapshot),
      countSnapshotsForKey store period periodKey ≤ 1 →
        countSnapshotsForKey
          (ensureSnapshot period periodKey c2 stats2
            (ensureSnapshot period periodKey c1 stats1 store).2).2 period periodKey = 1) ∧
    (∀ (period periodKey createdAt : String) (currentStats : List UserStats)
        (store : List LeaderboardSnapshot) (p k : String),
      countSnapshotsForKey store p k ≤ 1 →
        countSnapshotsForKey (ensureSnapshot period periodKey createdAt currentStats store).2
          p k ≤ 1) := by
  refine ⟨?_, ?_, ?_⟩
  · intro period periodKey createdAt currentStats store snap h
    unfold ensureSnapshot
    rw [h]
  · intro period periodKey c1 c2 stats1 stats2 store h
    have h1 := ensureSnapshot_count_one period periodKey c1 stats1 store h
    exact ensureSnapshot_count_one period periodKey c2 stats2 _ (by omega)
  · intro period periodKey createdAt currentStats store p k h
    unfold ensureSnapshot
    cases hf : findSnapshotForKey store period periodKey with
    | some snap => exact h
    | none =>
        have h0 := countSnapshotsForKey_eq_zero_of_find?_none hf
        simp only [countSnapshotsForKey, List.filter_append, List.length_append] at *
        by_cases hmatch : snapshotKeyMatch p k
          { period := period, periodKey := periodKey, createdAt := createdAt,
            users := currentStats.map toSnapshotUserStats } = true
        · have hpk : p = period ∧ k = periodKey := by
            simp only [snapshotKeyMatch, Bool.and_eq_true, beq_iff_eq] at hmatch
            exact ⟨hmatch.1.symm, hmatch.2.symm⟩
          obtain ⟨hp, hk⟩ := hpk
          subst hp
          subst hk
          simp [hmatch, h0]
        · simpa [hmatch] using h

/-- A concrete pre-existing snapshot document for the C1 witness. -/
def existingWeeklySnap : LeaderboardSnapshot :=
  { period := "weekly", periodKey := "2026-W02", createdAt := "2026-01-05", users := [] }

/-- Witness for C1 at concrete inputs: a store already holding the weekly
snapshot is returned unchanged; starting from an empty store, two
successive calls persist exactly one document. -/
theorem ensureSnapshot_spec_witness :
    ensureSnapshot "weekly" "2026-W02" "2026-01-06" [] [existingWeeklySnap] =
      (existingWeeklySnap, [existingWeeklySnap]) ∧
    countSnapshotsForKey
      (ensureSnapshot "weekly" "2026-W02" "t2" []
        (ensureSnapshot "weekly" "2026-W02" "t1" [] []).2).2 "weekly" "2026-W02" = 1 ∧
    countSnapshotsForKey (ensureSnapshot "weekly" "2026-W02" "t1" [] []).2 "monthly" "2026-01" ≤ 1 := by
  refine ⟨?_, ?_, ?_⟩
  · exact ensureSnapshot_spec.1 "weekly" "2026-W02" "2026-01-06" [] [existingWeeklySnap]
      existingWeeklySnap (by rfl)
  · exact ensureSnapshot_spec.2.1 "weekly" "2026-W02" "t1" "t2" [] [] [] (by decide)
  · exact ensureSnapshot_spec.2.2 "weekly" "2026-W02" "t1" [] [] "monthly" "2026-01" (by decide)

/-! ## Snapshot patching for a newly added user (`App.tsx`,
`addUserToCurrentSnapshots`) -/

/-- The three current period keys computed at the top of
`addUserToCurrentSnapshots`. -/
structure CurrentPeriodKeys where
  weekly : String
  monthly : String
  yearly : String

/-- The `isCurrent` test from `addUserToCurrentSnapshots`. -/
def isCurrentPeriodSnapshot (keys : CurrentPeriodKeys) (s : LeaderboardSnapshot) : Bool :=
  (s.period == "weekly" && s.periodKey == keys.weekly) ||
  (s.period == "monthly" && s.periodKey == keys.monthly) ||
  (s.period == "yearly" && s.periodKey == keys.yearly)

/-- The baseline entry appended for the newly added user, carrying their
stats at join time. -/
def newUserSnapshotEntry (username name : String) (stats : UserStats) : SnapshotUserStats :=
  { username := username, name := some name, jobsApplied := stats.jobsApplied,
    easy := stats.easy, medium := stats.medium, hard := stats.hard, total := stats.total,
    xp := stats.xp }

/-- The per-document update of `addUserToCurrentSnapshots`: patch a
snapshot only when it is current and does not already contain the
username; the patch appends one baseline entry. -/
def patchSnapshotWithUser (keys : CurrentPeriodKeys) (username name : String)
    (stats : UserStats) (s : LeaderboardSnapshot) : LeaderboardSnapshot :=
  if isCurrentPeriodSnapshot keys s && !(s.users.any (fun u => u.username == username)) then
    { s with users := s.users ++ [newUserSnapshotEntry username name stats] }
  else s

/-- Embedding of `addUserToCurrentSnapshots` from `App.tsx`, applied over the whole
snapshot collection. -/
def addUserToCurrentSnapshots (keys : CurrentPeriodKeys) (username : String)
    (stats : UserStats) (name : String) (store : List LeaderboardSnapshot) :
    List LeaderboardSnapshot :=
  store.map (patchSnapshotWithUser keys username name stats)

/-- Claim C7: a current-period snapshot already containing the username is
left entirely unchanged; one not containing it gets exactly one new
baseline entry appended, with every pre-existing entry and every other
field unmodified; a non-current snapshot is never touched. -/
theorem patchSnapshotWithUser_spec :
    (∀ (keys : CurrentPeriodKeys) (username name : String) (stats : UserStats)
        (s : LeaderboardSnapshot),
      isCurrentPeriodSnapshot keys s = true →
      (∃ e ∈ s.users, e.username = username) →
        patchSnapshotWithUser keys username name stats s = s) ∧
    (∀ (keys : CurrentPeriodKeys) (username name : String) (stats : UserStats)
        (s : LeaderboardSnapshot),
      isCurrentPeriodSnapshot keys s = true →
      (∀ e ∈ s.users, e.username ≠ username) →
        (patchSnapshotWithUser keys username name stats s).users =
          s.users ++ [newUserSnapshotEntry username name stats] ∧
        (patchSnapshotWithUser keys username name stats s).period = s.period ∧
        (patchSnapshotWithUser keys username name stats s).periodKey = s.periodKey ∧
        (patchSnapshotWithUser keys username name stats s).createdAt = s.createdAt) ∧
    (∀ (keys : CurrentPeriodKeys) (username name : String) (stats : UserStats)
        (s : LeaderboardSnapshot),
      isCurrentPeriodSnapshot keys s = false →
        patchSnapshotWithUser keys username name stats s = s) := by
  refine ⟨?_, ?_, ?_⟩
  · intro keys username name stats s hcur hmem
    unfold patchSnapshotWithUser
    have hany : s.users.any (fun u => u.username == username) = true := by
      rw [List.any_eq_true]
      obtain ⟨e, he, heq⟩ := hmem
      exact ⟨e, he, beq_iff_eq.mpr heq⟩
    simp [hany]
  · intro keys username name stats s hcur hnone
    unfold patchSnapshotWithUser
    have hany : s.users.any (fun u => u.username == username) = false := by
      rw [Bool.eq_false_iff]
      intro hc
      obtain ⟨e, he, heq⟩ := List.any_eq_true.mp hc
      exact hnone e he (beq_iff_eq.mp heq)
    simp [hcur, hany]
  · intro keys username name stats s hcur
    unfold patchSnapshotWithUser
    simp [hcur]

/-- Witness for C7 at concrete inputs: the weekly snapshot already holding
"alice" is unchanged; a weekly snapshot without "bob" gets bob appended; a
stale-key snapshot is untouched. -/
theorem patchSnapshotWithUser_spec_witness :
    patchSnapshotWithUser ⟨"2026-W02", "2026-01", "2026"⟩ "alice" "Alice"
      { username := "alice", jobsApplied := 0, easy := 1, medium := 0, hard := 0,
        total := 1, xp := 1, rank := 0 }
      { period := "weekly", periodKey := "2026-W02", createdAt := "t",
        users := [{ username := "alice", jobsApplied := 0, easy := 0, medium := 0,
                    hard := 0, total := 0, xp := 0 }] } =
      { period := "weekly", periodKey := "2026-W02", createdAt := "t",
        users := [{ username := "alice", jobsApplied := 0, easy := 0, medium := 0,
                    hard := 0, total := 0, xp := 0 }] } ∧
    (patchSnapshotWithUser ⟨"2026-W02", "2026-01", "2026"⟩ "bob" "Bob"
      { username := "bob", jobsApplied := 2, easy := 3, medium := 4, hard := 5,
        total := 12, xp := 33, rank := 0 }
      { period := "monthly", periodKey := "2026-01", createdAt := "t", users := [] }).users =
      [] ++ [newUserSnapshotEntry "bob" "Bob"
        { username := "bob", jobsApplied := 2, easy := 3, medium := 4, hard := 5,
          total := 12, xp := 33, rank := 0 }] ∧
    patchSnapshotWithUser ⟨"2026-W02", "2026-01", "2026"⟩ "bob" "Bob"
      { username := "bob", jobsApplied := 2, easy := 3, medium := 4, hard := 5,
        total := 12, xp := 33, rank := 0 }
      { period := "weekly", periodKey := "2025-W52", createdAt := "t", users := [] } =
      { period := "weekly", periodKey := "2025-W52", createdAt := "t", users := [] } := by
  refine ⟨?_, ?_, ?_⟩
  · exact patchSnapshotWithUser_spec.1 _ "alice" "Alice" _ _ (by rfl)
      ⟨{ username := "alice", jobsApplied := 0, easy := 0, medium := 0, hard := 0,
         total := 0, xp := 0 }, by simp, rfl⟩
  · exact (patchSnapshotWithUser_spec.2.1 _ "bob" "Bob" _ _ (by rfl)
      (by simp)).1
  · exact patchSnapshotWithUser_spec.2.2 _ "bob" "Bob" _ _ (by rfl)

/-! ## Stats fetcher (`App.tsx`, `fetchUserStats`) -/

/-- How one HTTP response body parses, as far as `fetchUserStats` inspects
it: a success payload with the four solved counts, a structured error
whose message contains "user does not exist", some other parsed JSON whose
`status` is not `success`, or a body that fails to parse as JSON. -/
inductive RespBody
  | jsonSuccess (easy medium hard total : Int)
  | jsonUserNotExist
  | jsonOtherStatus
  | unparseable
deriving Repr, DecidableEq

/-- Outcome of one `fetch` attempt: the promise rejects (network failure)
with an error message, or a response with an HTTP status code and a body
arrives. -/
inductive AttemptResult
  | netFail (msg : String)
  | resp (statusCode : Nat) (body : RespBody)
deriving Repr, DecidableEq

/-- Embedding of `response.ok`: HTTP status in the 2xx range. -/
def respOk (statusCode : Nat) : Bool := 200 ≤ statusCode && statusCode ≤ 299

/-- The retry ceiling `maxRetries = 3` from `fetchUserStats`. -/
def maxRetries : Nat := 3

/-- The message of the error thrown when `response.json()` on a 2xx
response fails to parse (library-generated; its exact text is irrelevant
to every claim). -/
def jsonParseFailureMessage : String := "Unexpected end of JSON input"

/-- An all-zero stats record carrying an error, as returned on every
failure path of `fetchUserStats`. -/
def zeroStatsWithError (username : String) (jobsApplied : Int) (err : Option String) :
    UserStats :=
  { username := username, name := none, jobsApplied := jobsApplied, easy := 0, medium := 0,
    hard := 0, total := 0, xp := 0, rank := 0, error := err }

/-- The retry loop of `fetchUserStats`, with `env` giving the outcome of
each attempt. Returns the stats record together with the list of backoff
delays (in milliseconds) waited before retries. `fuel` bounds the
remaining iterations; the out-of-fuel value is the source's post-loop
fallback record, which the entry point never reaches because the loop
returns at the latest when `attempt = maxRetries`. -/
def fetchUserStatsLoop (env : Nat → AttemptResult) (username : String) (jobsApplied : Int) :
    Nat → Nat → UserStats × List Nat
  | _, 0 => (zeroStatsWithError username jobsApplied (some "Error fetching data"), [])
  | attempt, fuel + 1 =>
    match env attempt with
    | .netFail msg =>
        if maxRetries ≤ attempt then
          (zeroStatsWithError username jobsApplied (some msg), [])
        else
          let rest := fetchUserStatsLoop env username jobsApplied (attempt + 1) fuel
          (rest.1, 1000 * 2 ^ attempt :: rest.2)
    | .resp statusCode body =>
        if respOk statusCode then
          match body with
          | .jsonSuccess easy medium hard total =>
              ({ username := username, name := none, jobsApplied := jobsApplied,
                 easy := easy, medium := medium, hard := hard, total := total,
                 xp := (jobsApplied : Rat) * (1/2) + (easy : Rat) * 1 + (medium : Rat) * 2 +
                       (hard : Rat) * 4,
                 rank := 0, error := none }, [])
          | .jsonUserNotExist =>
              (zeroStatsWithError username jobsApplied (some "this is not a leetcode user"), [])
          | .jsonOtherStatus =>
              (zeroStatsWithError username jobsApplied (some "User not found"), [])
          | .unparseable =>
              if maxRetries ≤ attempt then
                (zeroStatsWithError username jobsApplied (some jsonParseFailureMessage), [])
              else
                let rest := fetchUserStatsLoop env username jobsApplied (attempt + 1) fuel
                (rest.1, 1000 * 2 ^ attempt :: rest.2)
        else
          if 500 ≤ statusCode ∧ attempt < maxRetries then
            let rest := fetchUserStatsLoop env username jobsApplied (attempt + 1) fuel
            (rest.1, 1000 * 2 ^ attempt :: rest.2)
          else
            match body with
            | .jsonUserNotExist =>
                (zeroStatsWithError username jobsApplied
                  (some "this is not a leetcode user"), [])
            | _ =>
                if maxRetries ≤ attempt then
                  (zeroStatsWithError username jobsApplied
                    (some ("HTTP error! status: " ++ toString statusCode)), [])
                else
                  let rest := fetchUserStatsLoop env username jobsApplied (attempt + 1) fuel
                  (rest.1, 1000 * 2 ^ attempt :: rest.2)

/-- Embedding of `fetchUserStats` from `App.tsx`: run the retry loop starting at attempt
zero; the loop guard is `attempt <= maxRetries`, so `maxRetries + 1`
iterations always suffice. -/
def fetchUserStats (env : Nat → AttemptResult) (username : String)
    (jobsApplied : Int := 0) : UserStats × List Nat :=
  fetchUserStatsLoop env username jobsApplied 0 (maxRetries + 1)

/-- An attempt outcome on which `fetchUserStats` retries (or, at the
ceiling, reports a transient failure): a network failure, or a 5xx-class
response whose body is not the structured "user does not exist" error. -/
def transientOutcome : AttemptResult → Prop
  | .netFail _ => True
  | .resp statusCode body => 500 ≤ statusCode ∧ body ≠ RespBody.jsonUserNotExist

instance : ∀ r, Decidable (transientOutcome r) := fun r => by
  cases r <;> unfold transientOutcome <;> infer_instance

/-- The message of the last error raised by an attempt outcome. -/
def lastErrorMessage : AttemptResult → String
  | .netFail msg => msg
  | .resp statusCode _ => "HTTP error! status: " ++ toString statusCode

theorem fetchUserStatsLoop_retry_step (env : Nat → AttemptResult) (u : String) (j : Int)
    (attempt fuel : Nat) (hlt : attempt < maxRetries)
    (ht : transientOutcome (env attempt)) :
    fetchUserStatsLoop env u j attempt (fuel + 1) =
      ((fetchUserStatsLoop env u j (attempt + 1) fuel).1,
       1000 * 2 ^ attempt :: (fetchUserStatsLoop env u j (attempt + 1) fuel).2) := by
  conv_lhs => unfold fetchUserStatsLoop
  cases henv : env attempt with
  | netFail msg => simp [show ¬ maxRetries ≤ attempt by omega]
  | resp statusCode body =>
      rw [henv] at ht
      obtain ⟨h5, _⟩ := ht
      have hok : respOk statusCode = false := by
        simp only [respOk, Bool.and_eq_false_iff, decide_eq_false_iff_not]
        omega
      simp [hok, h5, hlt]

theorem fetchUserStatsLoop_last_step (env : Nat → AttemptResult) (u : String) (j : Int)
    (fuel : Nat) (ht : transientOutcome (env maxRetries)) :
    fetchUserStatsLoop env u j maxRetries (fuel + 1) =
      (zeroStatsWithError u j (some (lastErrorMessage (env maxRetries))), []) := by
  conv_lhs => unfold fetchUserStatsLoop
  cases henv : env maxRetries with
  | netFail msg => simp [lastErrorMessage, henv]
  | resp statusCode body =>
      rw [henv] at ht
      obtain ⟨h5, hbody⟩ := ht
      have hok : respOk statusCode = false := by
        simp only [respOk, Bool.and_eq_false_iff, decide_eq_false_iff_not]
        omega
      have hno : ¬ (500 ≤ statusCode ∧ maxRetries < maxRetries) := by omega
      cases body with
      | jsonUserNotExist => exact absurd rfl hbody
      | jsonSuccess easy medium hard total => simp [hok, hno, lastErrorMessage, henv]
      | jsonOtherStatus => simp [hok, hno, lastErrorMessage, henv]
      | unparseable => simp [hok, hno, lastErrorMessage, henv]

theorem fetchUserStatsLoop_all_transient (env : Nat → AttemptResult) (u : String) (j : Int) :
    ∀ (k attempt : Nat), attempt + k = maxRetries →
      (∀ i, i ≤ maxRetries → transientOutcome (env i)) →
      fetchUserStatsLoop env u j attempt (k + 1) =
        (zeroStatsWithError u j (some (lastErrorMessage (env maxRetries))),
         (List.range k).map (fun t => 1000 * 2 ^ (attempt + t))) := by
  intro k
  induction k with
  | zero =>
      intro attempt hsum ht
      have ha : attempt = maxRetries := by omega
      subst ha
      simpa using fetchUserStatsLoop_last_step env u j 0 (ht maxRetries le_rfl)
  | succ k ih =>
      intro attempt hsum ht
      rw [fetchUserStatsLoop_retry_step env u j attempt (k + 1) (by omega)
        (ht attempt (by omega))]
      rw [ih (attempt + 1) (by omega) ht]
      refine Prod.ext rfl ?_
      simp only [List.range_succ_eq_map, List.map_cons, List.map_map]
      refine congrArg₂ List.cons (by simp) ?_
      refine List.map_congr_left ?_
      intro t _
      simp only [Function.comp_apply]
      have hexp : attempt + Nat.succ t = attempt + 1 + t := by omega
      rw [hexp]

/-- Claim C8: when every attempt fails transiently (5xx or network
failure), `fetchUserStats` retries with backoff delays 1000, 2000, 4000 ms
(the base delay doubling on each attempt) up to the ceiling of 3 retries
and then returns a zeroed record carrying the last error's message;
whereas a non-5xx unsuccessful response whose structured body says the
user does not exist yields the not-found record immediately, with no
retry (no delays). -/
theorem fetchUserStats_retry_spec :
    (∀ (env : Nat → AttemptResult) (u : String) (j : Int),
      (∀ i, i ≤ maxRetries → transientOutcome (env i)) →
        fetchUserStats env u j =
          (zeroStatsWithError u j (some (lastErrorMessage (env maxRetries))),
           [1000, 2000, 4000])) ∧
    (∀ (env : Nat → AttemptResult) (u : String) (j : Int) (statusCode : Nat),
      env 0 = .resp statusCode .jsonUserNotExist →
      respOk statusCode = false →
      statusCode < 500 →
        fetchUserStats env u j =
          (zeroStatsWithError u j (some "this is not a leetcode user"), [])) := by
  constructor
  · intro env u j htrans
    unfold fetchUserStats
    rw [show maxRetries + 1 = 3 + 1 from rfl]
    rw [fetchUserStatsLoop_all_transient env u j 3 0 (by decide) htrans]
    congr 1
  · intro env u j statusCode henv hok h5
    unfold fetchUserStats fetchUserStatsLoop
    rw [henv]
    have hno : ¬ (500 ≤ statusCode ∧ 0 < maxRetries) := by omega
    simp [hok, hno]

/-- A concrete environment where every attempt is a network failure. -/
def envAllNetFail : Nat → AttemptResult := fun _ => .netFail "network down"

/-- A concrete environment whose first response is a 404 with the
structured "user does not exist" body. -/
def envUserMissing : Nat → AttemptResult := fun _ => .resp 404 .jsonUserNotExist

/-- Witness for C8 at concrete environments. -/
theorem fetchUserStats_retry_spec_witness :
    fetchUserStats envAllNetFail "alice" 0 =
      (zeroStatsWithError "alice" 0 (some "network down"), [1000, 2000, 4000]) ∧
    fetchUserStats envUserMissing "bob" 2 =
      (zeroStatsWithError "bob" 2 (some "this is not a leetcode user"), []) := by
  constructor
  · exact fetchUserStats_retry_spec.1 envAllNetFail "alice" 0 (fun i _ => trivial)
  · exact fetchUserStats_retry_spec.2 envUserMissing "bob" 2 404 rfl (by decide) (by decide)

/-- Claim C9: for every environment, `fetchUserStats` returns a stats
record for the requested username (the embedding is a total function:
every exception of the source is caught and converted into a record), and
whenever the returned record carries an error, its easy, medium, hard,
total and xp fields are all zero while jobsApplied keeps the
known-jobs-applied argument, so a failed fetch contributes zero xp. -/
theorem fetchUserStats_error_zero_spec (env : Nat → AttemptResult) (u : String) (j : Int) :
    (fetchUserStats env u j).1.username = u ∧
    ((fetchUserStats env u j).1.error.isSome = true →
      (fetchUserStats env u j).1.easy = 0 ∧
      (fetchUserStats env u j).1.medium = 0 ∧
      (fetchUserStats env u j).1.hard = 0 ∧
      (fetchUserStats env u j).1.total = 0 ∧
      (fetchUserStats env u j).1.xp = 0 ∧
      (fetchUserStats env u j).1.jobsApplied = j) := by
  suffices h : ∀ (fuel attempt : Nat),
      (fetchUserStatsLoop env u j attempt fuel).1.username = u ∧
      ((fetchUserStatsLoop env u j attempt fuel).1.error.isSome = true →
        (fetchUserStatsLoop env u j attempt fuel).1.easy = 0 ∧
        (fetchUserStatsLoop env u j attempt fuel).1.medium = 0 ∧
        (fetchUserStatsLoop env u j attempt fuel).1.hard = 0 ∧
        (fetchUserStatsLoop env u j attempt fuel).1.total = 0 ∧
        (fetchUserStatsLoop env u j attempt fuel).1.xp = 0 ∧
        (fetchUserStatsLoop env u j attempt fuel).1.jobsApplied = j) by
    exact h (maxRetries + 1) 0
  intro fuel
  induction fuel with
  | zero =>
      intro attempt
      exact ⟨rfl, fun _ => ⟨rfl, rfl, rfl, rfl, rfl, rfl⟩⟩
  | succ n ih =>
      intro attempt
      unfold fetchUserStatsLoop
      cases henv : env attempt with
      | netFail msg =>
          by_cases ha : maxRetries ≤ attempt
          · simp only [ha, if_true]
            exact ⟨rfl, fun _ => ⟨rfl, rfl, rfl, rfl, rfl, rfl⟩⟩
          · simp only [ha, if_false]
            exact ih (attempt + 1)
      | resp statusCode body =>
          by_cases hok : respOk statusCode = true
          · simp only [hok, if_true]
            cases body with
            | jsonSuccess easy medium hard total =>
                exact ⟨rfl, fun hc => absurd hc (by simp)⟩
            | jsonUserNotExist => exact ⟨rfl, fun _ => ⟨rfl, rfl, rfl, rfl, rfl, rfl⟩⟩
            | jsonOtherStatus => exact ⟨rfl, fun _ => ⟨rfl, rfl, rfl, rfl, rfl, rfl⟩⟩
            | unparseable =>
                by_cases ha : maxRetries ≤ attempt
                · simp only [ha, if_true]
                  exact ⟨rfl, fun _ => ⟨rfl, rfl, rfl, rfl, rfl, rfl⟩⟩
                · simp only [ha, if_false]
                  exact ih (attempt + 1)
          · simp only [Bool.not_eq_true] at hok
            simp only [hok, if_false]
            by_cases h5 : 500 ≤ statusCode ∧ attempt < maxRetries
            · simp only [h5, if_true]
              exact ih (attempt + 1)
            · simp only [h5, if_false]
              cases body with
              | jsonUserNotExist => exact ⟨rfl, fun _ => ⟨rfl, rfl, rfl, rfl, rfl, rfl⟩⟩
              | jsonSuccess easy medium hard total =>
                  by_cases ha : maxRetries ≤ attempt
                  · simp only [ha, if_true]
                    exact ⟨rfl, fun _ => ⟨rfl, rfl, rfl, rfl, rfl, rfl⟩⟩
                  · simp only [ha, if_false]
                    exact ih (attempt + 1)
              | jsonOtherStatus =>
                  by_cases ha : maxRetries ≤ attempt
                  · simp only [ha, if_true]
                    exact ⟨rfl, fun _ => ⟨rfl, rfl, rfl, rfl, rfl, rfl⟩⟩
                  · simp only [ha, if_false]
                    exact ih (attempt + 1)
              | unparseable =>
                  by_cases ha : maxRetries ≤ attempt
                  · simp only [ha, if_true]
                    exact ⟨rfl, fun _ => ⟨rfl, rfl, rfl, rfl, rfl, rfl⟩⟩
                  · simp only [ha, if_false]
                    exact ih (attempt + 1)

/-- Witness for C9 at a concrete failing environment. -/
theorem fetchUserStats_error_zero_spec_witness :
    (fetchUserStats envAllNetFail "alice" 5).1.xp = 0 ∧
    (fetchUserStats envAllNetFail "alice" 5).1.jobsApplied = 5 := by
  have h := fetchUserStats_error_zero_spec envAllNetFail "alice" 5
  have hc := h.2 (by decide)
  exact ⟨hc.2.2.2.2.1, hc.2.2.2.2.2⟩

/-! ## Period key calculator (`dateUtils.ts`, `getWeeklyPeriodKey`)

The source formats the zoned date with the date-fns pattern `RRRR-'W'II`
(ISO week-numbering year, a dash, the letter W, the two-digit ISO week
number), after converting the instant into the fixed reference time zone.
An instant is modelled by its civil day number in that zone: days elapsed
since 0001-01-01 (proleptic Gregorian); day 0 is a Monday, so the ISO
weeks (Monday start) are exactly the blocks `[7k, 7k+6]`. The library's
calendar arithmetic is modelled with the standard Gregorian leap rule. -/

/-- Number of days strictly before January 1 of Gregorian year `y ≥ 1`,
counted from 0001-01-01: 365 per year plus one per leap year (divisible by
4, not by 100 unless by 400). -/
def daysBeforeYear (y : Nat) : Nat :=
  365 * (y - 1) + (y - 1) / 4 - (y - 1) / 100 + (y - 1) / 400

/-- The Gregorian civil year containing day `d`: a closed-form guess from
the 400-year cycle length 146097, corrected by at most two. -/
def yearOfDay (d : Nat) : Nat :=
  let g := 400 * d / 146097 + 1
  if d < daysBeforeYear (g + 1) then g
  else if d < daysBeforeYear (g + 2) then g + 1
  else g + 2

theorem daysBeforeYear_mono : ∀ {y z : Nat}, y ≤ z → daysBeforeYear y ≤ daysBeforeYear z := by
  intro y z h
  exact monotone_nat_of_le_succ (fun n => by unfold daysBeforeYear; omega) h

theorem daysBeforeYear_succ_ge {y : Nat} (hy : 1 ≤ y) :
    daysBeforeYear y + 365 ≤ daysBeforeYear (y + 1) := by
  unfold daysBeforeYear; omega

theorem daysBeforeYear_succ_le (y : Nat) :
    daysBeforeYear (y + 1) ≤ daysBeforeYear y + 366 := by
  unfold daysBeforeYear; omega

theorem yearOfDay_bracket (d : Nat) :
    daysBeforeYear (yearOfDay d) ≤ d ∧ d < daysBeforeYear (yearOfDay d + 1) ∧
    1 ≤ yearOfDay d := by
  have hlow : daysBeforeYear (400 * d / 146097 + 1) ≤ d := by unfold daysBeforeYear; omega
  have hhigh : d < daysBeforeYear (400 * d / 146097 + 1 + 3) := by unfold daysBeforeYear; omega
  unfold yearOfDay
  dsimp only
  split_ifs with h1 h2
  · exact ⟨hlow, h1, by omega⟩
  · exact ⟨by omega, h2, by omega⟩
  · refine ⟨by omega, ?_, by omega⟩
    have : 400 * d / 146097 + 1 + 3 = 400 * d / 146097 + 2 + 1 + 1 := by omega
    rw [this] at hhigh
    exact lt_of_lt_of_le hhigh (le_refl _)

theorem yearOfDay_unique {d y : Nat} (h1 : daysBeforeYear y ≤ d)
    (h2 : d < daysBeforeYear (y + 1)) : yearOfDay d = y := by
  obtain ⟨hb1, hb2, _⟩ := yearOfDay_bracket d
  rcases Nat.lt_trichotomy (yearOfDay d) y with hlt | heq | hgt
  · have := daysBeforeYear_mono (show yearOfDay d + 1 ≤ y by omega)
    omega
  · exact heq
  · have := daysBeforeYear_mono (show y + 1 ≤ yearOfDay d by omega)
    omega

/-- The Monday starting the ISO week of day `d` (day 0 is a Monday). -/
def startOfISOWeek (d : Nat) : Nat := 7 * (d / 7)

/-- The Thursday of the ISO week of day `d`; per ISO 8601 the
week-numbering year of `d` is the civil year containing this Thursday. -/
def isoWeekThursday (d : Nat) : Nat := startOfISOWeek d + 3

/-- The ISO week-numbering year rendered by the `RRRR` format token. -/
def isoWeekYear (d : Nat) : Nat := yearOfDay (isoWeekThursday d)

/-- The ISO week number (1..53) rendered by the `II` format token: one plus
the number of whole weeks between the week's Thursday and the start of its
week-numbering year. -/
def isoWeekNumber (d : Nat) : Nat :=
  (isoWeekThursday d - daysBeforeYear (isoWeekYear d)) / 7 + 1

/-- Decimal digit characters. -/
def digitChar (d : Nat) : Char :=
  match d with
  | 0 => '0' | 1 => '1' | 2 => '2' | 3 => '3' | 4 => '4'
  | 5 => '5' | 6 => '6' | 7 => '7' | 8 => '8' | _ => '9'

/-- Zero-padded two-digit decimal rendering (the `II` token, week numbers
1..53). -/
def pad2Chars (n : Nat) : List Char := [digitChar (n / 10 % 10), digitChar (n % 10)]

/-- Zero-padded four-digit decimal rendering (the `RRRR` token for week
years up to 9999). -/
def pad4Chars (n : Nat) : List Char :=
  [digitChar (n / 1000 % 10), digitChar (n / 100 % 10), digitChar (n / 10 % 10),
   digitChar (n % 10)]

/-- Embedding of `getWeeklyPeriodKey` from `dateUtils.ts`: the zoned date formatted as
`RRRR-'W'II`, e.g. `2026-W01`. -/
def getWeeklyPeriodKey (d : Nat) : String :=
  String.mk (pad4Chars (isoWeekYear d) ++ '-' :: 'W' :: pad2Chars (isoWeekNumber d))

theorem digitChar_lt_digitChar : ∀ e < 10, ∀ d < e, digitChar d < digitChar e := by decide

theorem listLt_cons_of_lt {a b : Char} (h : a < b) (as bs : List Char) :
    (a :: as) < (b :: bs) := List.Lex.rel h

theorem listLt_cons_same (a : Char) {as bs : List Char} (h : as < bs) :
    (a :: as) < (a :: bs) := List.Lex.cons h

theorem listLt_append_left (pre : List Char) {as bs : List Char} (h : as < bs) :
    (pre ++ as) < (pre ++ bs) := by
  induction pre with
  | nil => exact h
  | cons c cs ih => exact listLt_cons_same c ih

theorem pad2Chars_lt {a b : Nat} (hab : a < b) (hb : b ≤ 99) (r s : List Char) :
    (pad2Chars a ++ r) < (pad2Chars b ++ s) := by
  unfold pad2Chars
  by_cases h1 : a / 10 % 10 = b / 10 % 10
  · rw [h1]
    refine listLt_cons_same _ ?_
    exact listLt_cons_of_lt (digitChar_lt_digitChar _ (by omega) _ (by omega)) r s
  · exact listLt_cons_of_lt (digitChar_lt_digitChar _ (by omega) _ (by omega)) _ _

theorem pad4Chars_lt {a b : Nat} (hab : a < b) (hb : b ≤ 9999) (r s : List Char) :
    (pad4Chars a ++ r) < (pad4Chars b ++ s) := by
  unfold pad4Chars
  by_cases h3 : a / 1000 % 10 = b / 1000 % 10
  · rw [h3]
    refine listLt_cons_same _ ?_
    by_cases h2 : a / 100 % 10 = b / 100 % 10
    · rw [h2]
      refine listLt_cons_same _ ?_
      by_cases h1 : a / 10 % 10 = b / 10 % 10
      · rw [h1]
        refine listLt_cons_same _ ?_
        exact listLt_cons_of_lt (digitChar_lt_digitChar _ (by omega) _ (by omega)) r s
      · exact listLt_cons_of_lt (digitChar_lt_digitChar _ (by omega) _ (by omega)) _ _
    · exact listLt_cons_of_lt (digitChar_lt_digitChar _ (by omega) _ (by omega)) _ _
  · exact listLt_cons_of_lt (digitChar_lt_digitChar _ (by omega) _ (by omega)) _ _

theorem isoWeekThursday_add_seven (t : Nat) :
    isoWeekThursday (t + 7) = isoWeekThursday t + 7 := by
  unfold isoWeekThursday startOfISOWeek
  omega

theorem weeklyKeyChars_lt_of_same_year (y w w' : Nat) (h1 : w < w') (h2 : w' ≤ 99) :
    (pad4Chars y ++ '-' :: 'W' :: pad2Chars w) <
      (pad4Chars y ++ '-' :: 'W' :: pad2Chars w') := by
  have h := pad2Chars_lt h1 h2 ([] : List Char) []
  rw [List.append_nil, List.append_nil] at h
  have h' : ((pad4Chars y ++ ['-', 'W']) ++ pad2Chars w) <
      ((pad4Chars y ++ ['-', 'W']) ++ pad2Chars w') := listLt_append_left _ h
  simpa [List.append_assoc] using h'

theorem getWeeklyPeriodKey_data_lt (t : Nat) (hy : isoWeekYear (t + 7) ≤ 9999) :
    (getWeeklyPeriodKey t).data < (getWeeklyPeriodKey (t + 7)).data := by
  have hth7 : isoWeekThursday (t + 7) = isoWeekThursday t + 7 := isoWeekThursday_add_seven t
  obtain ⟨hb1, hb2, hb3⟩ := yearOfDay_bracket (isoWeekThursday t)
  by_cases hc : isoWeekThursday t + 7 < daysBeforeYear (yearOfDay (isoWeekThursday t) + 1)
  · have hy2 : yearOfDay (isoWeekThursday t + 7) = yearOfDay (isoWeekThursday t) :=
      yearOfDay_unique (by omega) hc
    have hyear : isoWeekYear (t + 7) = isoWeekYear t := by
      unfold isoWeekYear
      rw [hth7, hy2]
    have hwk : isoWeekNumber (t + 7) = isoWeekNumber t + 1 := by
      unfold isoWeekNumber isoWeekYear
      rw [hth7, hy2]
      omega
    have hwb : isoWeekNumber (t + 7) ≤ 53 := by
      unfold isoWeekNumber isoWeekYear
      rw [hth7, hy2]
      have h366 := daysBeforeYear_succ_le (yearOfDay (isoWeekThursday t))
      omega
    rw [hwk] at hwb
    unfold getWeeklyPeriodKey
    rw [hyear, hwk]
    exact weeklyKeyChars_lt_of_same_year (isoWeekYear t) (isoWeekNumber t)
      (isoWeekNumber t + 1) (by omega) (by omega)
  · have hup : isoWeekThursday t + 7 <
        daysBeforeYear (yearOfDay (isoWeekThursday t) + 1 + 1) := by
      have h365 := daysBeforeYear_succ_ge
        (show 1 ≤ yearOfDay (isoWeekThursday t) + 1 by omega)
      omega
    have hy2 : yearOfDay (isoWeekThursday t + 7) = yearOfDay (isoWeekThursday t) + 1 :=
      yearOfDay_unique (by omega) hup
    have hyear : isoWeekYear (t + 7) = isoWeekYear t + 1 := by
      unfold isoWeekYear
      rw [hth7, hy2]
    unfold getWeeklyPeriodKey
    rw [hyear]
    exact pad4Chars_lt (by omega) (by rw [hyear] at hy; exact hy) _ _

theorem stringKey_ne_of_data_lt {s t : String} (h : s.data < t.data) : s ≠ t := by
  intro he
  subst he
  exact lt_irrefl _ h

/-- Claim C4: any two instants in the same ISO week of the reference time
zone get the same weekly period key; an instant exactly one ISO week later
gets a different key, and the later instant's key compares as the later
key in lexicographic string order (stated for week years up to 9999, the
range the four-digit `RRRR` token renders). -/
theorem getWeeklyPeriodKey_spec :
    (∀ t1 t2 : Nat, t1 / 7 = t2 / 7 → getWeeklyPeriodKey t1 = getWeeklyPeriodKey t2) ∧
    (∀ t1 t2 : Nat, t2 = t1 + 7 → isoWeekYear t2 ≤ 9999 →
      getWeeklyPeriodKey t1 ≠ getWeeklyPeriodKey t2 ∧
      getWeeklyPeriodKey t1 < getWeeklyPeriodKey t2) := by
  constructor
  · intro t1 t2 h
    unfold getWeeklyPeriodKey isoWeekNumber isoWeekYear isoWeekThursday startOfISOWeek
    rw [h]
  · intro t1 t2 he hy
    subst he
    have h := getWeeklyPeriodKey_data_lt t1 hy
    exact ⟨stringKey_ne_of_data_lt h, String.lt_iff_toList_lt.mpr h⟩

/-- Witness for C4 at concrete days: day 739620 is Monday 2026-01-05 and
day 739621 is in the same ISO week, while day 739627 is exactly one week
later. -/
theorem getWeeklyPeriodKey_spec_witness :
    getWeeklyPeriodKey 739620 = getWeeklyPeriodKey 739621 ∧
    getWeeklyPeriodKey 739620 ≠ getWeeklyPeriodKey 739627 ∧
    getWeeklyPeriodKey 739620 < getWeeklyPeriodKey 739627 := by
  refine ⟨getWeeklyPeriodKey_spec.1 739620 739621 (by decide), ?_, ?_⟩
  · exact (getWeeklyPeriodKey_spec.2 739620 739627 (by decide) (by decide)).1
  · exact (getWeeklyPeriodKey_spec.2 739620 739627 (by decide) (by decide)).2

end LeetBoard
